import Mathlib

/-!
Shallow embedding of the document parsing and column-classification pipeline
of `src/services/document_parser.py` (class `DocumentParserService`).

Modelling conventions:
* A document is the ordered list of its tables; each table is its grid column
  count together with its rows, each row an ordered list of cell texts.
  (Paragraph-based document info extraction is outside the claims and omitted.)
* Python strings are Lean `String`s; the string primitives used by the code
  (`strip`, `lower`, `upper`, `in`, `startswith`, `endswith`) are implemented
  over `List Char` for the ASCII fragment the pipeline manipulates.
* Python float position ratios (`row_idx / total_rows`) are embedded as exact
  fractions compared by cross-multiplication; the comparisons performed by the
  code (against 0.1, 0.3, 0.5, 0.9) agree with IEEE double arithmetic on every
  document-scale table.
* The semantic-enrichment LLM call is an oracle parameter: it may raise
  (`Except.error`), return unparseable output (`Except.ok none`), or return a
  parsed enrichment object (`Except.ok (some e)`).
* Fallible Python code (the `TypeError` raised when a string default is
  compared against an `int` length in `_get_cell_text`) is embedded with
  `Except Unit`; the `except Exception` handler in `_parse_table_to_columns`
  corresponds to discarding `Except.error` rows.
-/

/-- Python `str.isspace` characters relevant to `strip()` (ASCII fragment). -/
def isSpaceChar (c : Char) : Bool :=
  c = ' ' || c = '\t' || c = '\n' || c = '\r' || c = '\x0b' || c = '\x0c'

/-- Python `str.strip()` over a character list. -/
def stripChars (l : List Char) : List Char :=
  ((l.dropWhile isSpaceChar).reverse.dropWhile isSpaceChar).reverse

/-- Python `str.lower()` (ASCII fragment). -/
def lowChars (l : List Char) : List Char := l.map Char.toLower

/-- Python `str.upper()` (ASCII fragment). -/
def upChars (l : List Char) : List Char := l.map Char.toUpper

/-- Does the second list start with the first? (`str.startswith`). -/
def hasPfx : List Char → List Char → Bool
  | [], _ => true
  | _ :: _, [] => false
  | a :: as, b :: bs => a = b && hasPfx as bs

/-- Does the second list end with the first? (`str.endswith`). -/
def hasSfx (sub s : List Char) : Bool := hasPfx sub.reverse s.reverse

/-- Python `sub in s` substring containment. -/
def hasSub (sub : List Char) : List Char → Bool
  | [] => sub.isEmpty
  | c :: t => hasPfx sub (c :: t) || hasSub sub t

/-- ASCII letter. -/
def isAlphaChar (c : Char) : Bool :=
  ('a' ≤ c && c ≤ 'z') || ('A' ≤ c && c ≤ 'Z')

/-- ASCII digit. -/
def isDigitChar (c : Char) : Bool := '0' ≤ c && c ≤ '9'

/-- Character allowed after the first one by `^[a-zA-Z][a-zA-Z0-9_]*$`. -/
def isIdentChar (c : Char) : Bool := isAlphaChar c || isDigitChar c || c = '_'

/-- `re.match(r'^[a-zA-Z][a-zA-Z0-9_]*$', s)` on an already-stripped string. -/
def identOk : List Char → Bool
  | [] => false
  | c :: cs => isAlphaChar c && cs.all isIdentChar

/-- Numeric value of a nonempty ASCII digit run (`int(...)`). -/
def natFromDigits (l : List Char) : Nat :=
  l.foldl (fun n c => 10 * n + (c.toNat - 48)) 0

/-- `' '.join(parts)`. -/
def joinSpace : List (List Char) → List Char
  | [] => []
  | [a] => a
  | a :: rest => a ++ ' ' :: joinSpace rest

/-- `str.strip()`. -/
def pyStrip (s : String) : String := ⟨stripChars s.data⟩

/-- `str.lower()`. -/
def pyLower (s : String) : String := ⟨lowChars s.data⟩

/-- `str.upper()`. -/
def pyUpper (s : String) : String := ⟨upChars s.data⟩

/-- Python `sub in s` on strings. -/
def strHas (s sub : String) : Bool := hasSub sub.data s.data

/-- Python `s.startswith(p)` on strings. -/
def strPfx (s p : String) : Bool := hasPfx p.data s.data

/-- Python `s.endswith(p)` on strings. -/
def strSfx (s p : String) : Bool := hasSfx p.data s.data

/-- A table as produced by the document reader: the grid column count
(`len(table.columns)`) and the rows' cell texts. -/
structure RawTable where
  numCols : Nat
  rows : List (List String)
deriving DecidableEq, Repr

/-- The cells of `table.rows[0]` (header row), empty list for an empty table. -/
def headerCellsOf (t : RawTable) : List String := t.rows.headD []

/-- Per-section scores of one field candidate. -/
structure Scores where
  header : Nat
  body : Nat
  trailer : Nat
deriving DecidableEq, Repr

/-- The `is_header / is_body / is_trailer` triple. -/
structure Flags where
  is_header : Bool
  is_body : Bool
  is_trailer : Bool
deriving DecidableEq, Repr

/-- Intermediate per-row record built by `_extract_classification_tables`. -/
structure FieldCand where
  name : String
  table_idx : Nat
  spec_idx : Nat
  row_idx : Nat
  scores : Scores
  max_score : Nat
  classification : String
deriving DecidableEq, Repr

/-- The nine enrichment fields filled in by the oracle. -/
structure Enriched where
  allowed_values : Option (List String)
  format_hint : Option String
  default_value : Option String
  is_system_generated : Bool
  data_classification : Option String
  foreign_key_table : Option String
  foreign_key_column : Option String
  business_rule : Option String
  sample_values : Option (List String)
deriving DecidableEq, Repr

/-- Defaults substituted when the oracle call fails (`_enhance_with_llm`). -/
def defaultEnriched : Enriched :=
  { allowed_values := none
    format_hint := none
    default_value := none
    is_system_generated := false
    data_classification := none
    foreign_key_table := none
    foreign_key_column := none
    business_rule := none
    sample_values := none }

/-- Output column record (`ColumnSchema`). -/
structure ColumnSchema where
  column_id : Nat
  column_name : String
  description : String
  data_type : String
  data_length : Option Nat
  precision : Option Nat
  scale : Option Nat
  nullable : Bool
  notes : String
  is_header : Bool
  is_body : Bool
  is_trailer : Bool
  allowed_values : Option (List String)
  format_hint : Option String
  default_value : Option String
  is_system_generated : Bool
  data_classification : Option String
  foreign_key_table : Option String
  foreign_key_column : Option String
  business_rule : Option String
  sample_values : Option (List String)
deriving DecidableEq, Repr

/-- Output table record (`TableSchema`). -/
structure TableSchema where
  table_name : String
  table_description : String
  columns : List ColumnSchema
deriving DecidableEq, Repr

/-- Output document record (`MetadataJSON`). -/
structure MetadataJSON where
  version : String
  tables : List TableSchema
deriving DecidableEq, Repr

/-- All columns of the output, in order. -/
def allColumns (m : MetadataJSON) : List ColumnSchema :=
  m.tables.flatMap (·.columns)

/-- The semantic-enrichment oracle: given column name, description, notes and
data type it raises (`error`), answers unparseable text (`ok none`), or a
parsed JSON object (`ok (some e)`). -/
def Oracle : Type := String → String → String → String → Except Unit (Option Enriched)

/-- An oracle that always raises. -/
def throwOracle : Oracle := fun _ _ _ _ => .error ()

/-- An oracle that always returns unparseable output. -/
def unparseableOracle : Oracle := fun _ _ _ _ => .ok none

/-- An oracle that always returns the all-defaults object. -/
def defaultsOkOracle : Oracle := fun _ _ _ _ => .ok (some defaultEnriched)

/-- `_is_field_specification_table` (lenient variant): at least two rows, joined
lower-cased header text has a field-name indicator and a data-type or
description indicator. -/
def is_field_specification_table (t : RawTable) : Bool :=
  if t.rows.length < 2 then false
  else
    let header_text : String :=
      ⟨joinSpace ((headerCellsOf t).map (fun c => stripChars (lowChars c.data)))⟩
    let has_field_name := strHas header_text "field name" || strHas header_text "field"
    let has_data_type := strHas header_text "data type" || strHas header_text "sql"
    let has_description := strHas header_text "description" || strHas header_text "business"
    has_field_name && (has_data_type || has_description)

/-- `_is_specification_table` (strict variant used for classification-table
discovery): two-column appendix tables need a field indicator and ≥ 3 rows;
tables with ≥ 4 grid columns need 2 of the 3 header indicators; anything else
is rejected. -/
def is_specification_table (t : RawTable) : Bool :=
  if t.rows.length < 2 then false
  else
    let headers := (headerCellsOf t).map (fun c => lowChars (stripChars c.data))
    let header_text : String := ⟨joinSpace headers⟩
    let has_field_indicator := strHas header_text "field name" || strHas header_text "field"
    if t.numCols = 2 then
      has_field_indicator && t.rows.length ≥ 3
    else if t.numCols ≥ 4 then
      let m1 : Nat := if strHas header_text "field name" then 1 else 0
      let m2 : Nat := if strHas header_text "description" || strHas header_text "business" then 1 else 0
      let m3 : Nat := if strHas header_text "data type" || strHas header_text "sql" then 1 else 0
      m1 + m2 + m3 ≥ 2
    else false

/-- Tables passing the lenient check (`_extract_field_specification_tables`). -/
def extract_field_specification_tables (doc : List RawTable) : List RawTable :=
  doc.filter is_field_specification_table

/-- Enumerated tables passing the strict check (step 1 of
`_extract_classification_tables`). -/
def specTables (doc : List RawTable) : List (Nat × RawTable) :=
  doc.enum.filter (fun p => is_specification_table p.2)

/-- First `some` produced by `f` over a list (models an early `return`). -/
def firstSome {α β : Type} (f : α → Option β) : List α → Option β
  | [] => none
  | a :: as => match f a with
    | some b => some b
    | none => firstSome f as

/-- `_find_field_column`: header-pattern scan validated against the first data
row, then a fallback over the first three columns. -/
def find_field_column (t : RawTable) : Option Nat :=
  if t.rows.length < 2 then none
  else
    let headers := (headerCellsOf t).map (fun c => pyLower (pyStrip c))
    let row1 := (t.rows.get? 1).getD []
    let sampleAt : Nat → String := fun idx =>
      if idx < row1.length then pyStrip (row1.getD idx "") else ""
    let pats : List String := ["field", "column", "name", "attribute", "field name", "column name"]
    let tryPat : String → Option Nat := fun p =>
      (headers.enum.find? (fun ie =>
        strHas ie.2 p && (sampleAt ie.1 ≠ "" && identOk (sampleAt ie.1).data))).map (·.1)
    match firstSome tryPat pats with
    | some idx => some idx
    | none =>
        firstSome (fun idx =>
          if idx < row1.length then
            let sample := pyStrip (row1.getD idx "")
            if sample ≠ "" && identOk sample.data then some idx else none
          else none)
          (List.range (min 3 headers.length))

/-- A nonnegative rational `num / den` (`den > 0`) as a numerator/denominator
pair: the exact value of a Python position ratio. -/
def posOf (idx total : Nat) : Nat × Nat :=
  if 0 < total then (idx, total) else (1, 2)

/-- Exact comparison `p < q` of two nonnegative fractions. -/
def fracLt (p q : Nat × Nat) : Bool := p.1 * q.2 < q.1 * p.2

/-- The point-scoring rubric of `_extract_classification_tables` for one
candidate name at a given row / table position. The position ratios
(`row_idx / total_rows`, `spec_idx / total_spec_tables`, defaulting to `0.5`
on a zero denominator) are embedded as exact fractions; the code's float
comparisons against `0.1`, `0.3`, `0.5`, `0.9` agree with the exact ones on
every document-scale table. -/
def scoreField (fname : String) (row_idx total_rows spec_idx total_spec : Nat) : Scores :=
  let nl := pyLower fname
  let position_in_table := posOf row_idx total_rows
  let table_position := posOf spec_idx total_spec
  let h0 : Nat :=
    if nl = "header_id" then 10
    else if nl = "subheader_id" then 10
    else if nl = "source_system_name" || nl = "source_file_name" || nl = "ingest_batch_id" then 8
    else if nl = "extraction_timestamp" || nl = "file_created_timestamp" ||
            nl = "processing_date" || nl = "source_line_number" then 7
    else 0
  let h1 := h0 + (if strHas nl "header" || strHas nl "file" || strHas nl "source" ||
                     strHas nl "batch" || strHas nl "ingest" then 4 else 0)
  let h2 := h1 + (if strPfx nl "source_" then 3 else 0)
  let h3 := h2 + (if strSfx nl "_timestamp" && fracLt position_in_table (3, 10) then 2 else 0)
  let h4 := h3 + (if fracLt position_in_table (1, 10) && fracLt table_position (1, 2) then 2 else 0)
  let t0 : Nat :=
    if nl = "total_amount" || nl = "total_records" || nl = "record_count" then 10
    else if nl = "quality_check_flag_text" || nl = "rejection_reason_text" ||
            nl = "replay_reference_text" then 8
    else 0
  let t1 := t0 + (if strHas nl "total" || strHas nl "count" || strHas nl "sum" ||
                     strHas nl "trailer" || strHas nl "quality" || strHas nl "check" then 4 else 0)
  let t2 := t1 + (if strPfx nl "total_" then 5 else 0)
  let t3 := t2 + (if strSfx nl "_total" || strSfx nl "_count" || strSfx nl "_sum" then 5 else 0)
  let t4 := t3 + (if strHas nl "quality" || strHas nl "rejection" || strHas nl "replay" then 4 else 0)
  let t5 := t4 + (if fracLt (9, 10) position_in_table && fracLt (1, 2) table_position then 2 else 0)
  let b0 : Nat :=
    (if strHas nl "amount" || strHas nl "currency" || strHas nl "date" ||
        strHas nl "time" || strHas nl "status" then 3 else 0)
  let b1 := b0 + (if strHas nl "beneficiary" || strHas nl "originating" ||
                     strHas nl "institution" || strHas nl "account" then 3 else 0)
  let b2 := b1 + (if strHas nl "address" || strHas nl "city" || strHas nl "country" ||
                     strHas nl "postal" || strHas nl "phone" || strHas nl "email" then 3 else 0)
  let b3 := b2 + (if strHas nl "transaction" || strHas nl "payment" ||
                     strHas nl "transfer" || strHas nl "instruction" then 3 else 0)
  let b4 := b3 + (if strHas nl "screening" || strHas nl "sanctions" ||
                     strHas nl "peps" || strHas nl "adverse" then 3 else 0)
  let b5 := b4 + (if h4 < 3 && t5 < 3 then 2 else 0)
  { header := h4, body := b5, trailer := t5 }

/-- `max(scores, key=scores.get)`: the first maximal key in insertion order
header, body, trailer. -/
def argmaxSection (s : Scores) : String :=
  if s.body ≤ s.header ∧ s.trailer ≤ s.header then "header"
  else if s.trailer ≤ s.body then "body"
  else "trailer"

/-- Candidate extraction from one strict specification table (step 2 of
`_extract_classification_tables`), including the fallback to column index 1
when no field-name column is found. -/
def fieldsOfSpecTable (total_spec spec_idx : Nat) (p : Nat × RawTable) : List FieldCand :=
  let table_idx := p.1
  let t := p.2
  let fci : Option Nat :=
    match find_field_column t with
    | some i => some i
    | none => if 1 < (headerCellsOf t).length then some 1 else none
  match fci with
  | none => []
  | some fcIdx =>
      let total_rows := t.rows.length - 1
      (t.rows.drop 1).enum.filterMap (fun re =>
        let row_idx := re.1 + 1
        let cells := re.2
        if fcIdx < cells.length then
          let fname := pyStrip (cells.getD fcIdx "")
          if fname ≠ "" && identOk fname.data then
            let sc := scoreField fname row_idx total_rows spec_idx total_spec
            some { name := fname, table_idx := table_idx, spec_idx := spec_idx,
                   row_idx := row_idx, scores := sc,
                   max_score := max sc.header (max sc.body sc.trailer),
                   classification := argmaxSection sc }
          else none
        else none)

/-- All candidates of a document in traversal order. -/
def allFields (doc : List RawTable) : List FieldCand :=
  let st := specTables doc
  st.enum.flatMap (fun se => fieldsOfSpecTable st.length se.1 se.2)

/-- Step 3: deduplication by name, keeping the first occurrence. -/
def dedupByName : List FieldCand → List String → List FieldCand
  | [], _ => []
  | f :: fs, seen =>
      if seen.contains f.name then dedupByName fs seen
      else f :: dedupByName fs (f.name :: seen)

/-- The document's unique candidates in first-occurrence order. -/
def uniqueFields (doc : List RawTable) : List FieldCand :=
  dedupByName (allFields doc) []

/-- Stable insertion into a descending-sorted list: the new element goes in
front of the first element whose key is ≤ its own. -/
def insDesc {α : Type} (k : α → Nat) (x : α) : List α → List α
  | [] => [x]
  | y :: ys => if k y ≤ k x then x :: y :: ys else y :: insDesc k x ys

/-- Stable descending sort by a numeric key: Python
`sorted(l, key=k, reverse=True)`. -/
def sortDesc {α : Type} (k : α → Nat) : List α → List α
  | [] => []
  | x :: xs => insDesc k x (sortDesc k xs)

/-- Step 4a: names of the top 6 candidates by header score. -/
def headerNamesOf (uniq : List FieldCand) : List String :=
  ((sortDesc (fun f => f.scores.header) uniq).take 6).map (·.name)

/-- Step 4b: names among the top 3 candidates by trailer score that are not
already claimed by the header set. -/
def trailerNamesOf (uniq : List FieldCand) (hdr : List String) : List String :=
  (((sortDesc (fun f => f.scores.trailer) uniq).take 3).map (·.name)).filter
    (fun n => ¬ hdr.contains n)

/-- Step 4c: every remaining unique name becomes body. -/
def bodyNamesOf (uniq : List FieldCand) (hdr trl : List String) : List String :=
  (uniq.map (·.name)).filter (fun n => ¬ hdr.contains n && ¬ trl.contains n)

/-- Step 5: the final name → flags association list. -/
def classMapOf (uniq : List FieldCand) (hdr bod trl : List String) :
    List (String × Flags) :=
  uniq.map (fun f =>
    (f.name, { is_header := hdr.contains f.name
               is_body := bod.contains f.name
               is_trailer := trl.contains f.name }))

/-- `_extract_classification_tables`: the global classification map. -/
def extract_classification_tables (doc : List RawTable) : List (String × Flags) :=
  let uniq := uniqueFields doc
  let hdr := headerNamesOf uniq
  let trl := trailerNamesOf uniq hdr
  let bod := bodyNamesOf uniq hdr trl
  classMapOf uniq hdr bod trl

/-- Convenience wrappers naming the three final sets of a document. -/
def headerFieldNames (doc : List RawTable) : List String :=
  headerNamesOf (uniqueFields doc)

/-- The final trailer set of a document. -/
def trailerFieldNames (doc : List RawTable) : List String :=
  trailerNamesOf (uniqueFields doc) (headerFieldNames doc)

/-- The final body set of a document. -/
def bodyFieldNames (doc : List RawTable) : List String :=
  bodyNamesOf (uniqueFields doc) (headerFieldNames doc) (trailerFieldNames doc)

/-- Role-to-column-index map built by `_identify_column_indices`. -/
structure ColIdx where
  field_number : Option Nat
  field_name : Option Nat
  description : Option Nat
  data_type : Option Nat
  nullable : Option Nat
  notes : Option Nat
deriving DecidableEq, Repr

/-- The empty role map. -/
def emptyColIdx : ColIdx :=
  { field_number := none, field_name := none, description := none,
    data_type := none, nullable := none, notes := none }

/-- `_identify_column_indices`: single left-to-right pass, first matching role
per cell, later cells overwrite a role matched again. -/
def identify_column_indices (headerCells : List String) : ColIdx :=
  headerCells.enum.foldl (fun acc ie =>
    let h := pyStrip (pyLower ie.2)
    if strHas h "#" || strHas h "field #" then { acc with field_number := some ie.1 }
    else if strHas h "field name" || h = "field" then { acc with field_name := some ie.1 }
    else if strHas h "business" || strHas h "description" then { acc with description := some ie.1 }
    else if strHas h "data type" || strHas h "sql" then { acc with data_type := some ie.1 }
    else if strHas h "nullable" then { acc with nullable := some ie.1 }
    else if strHas h "note" then { acc with notes := some ie.1 }
    else acc) emptyColIdx

/-- The value passed to `_get_cell_text` for a role looked up with
`col_indices.get(role, default)`: the mapped index, or the *string* default. -/
def roleOr (o : Option Nat) (d : String) : Nat ⊕ String :=
  match o with
  | some i => Sum.inl i
  | none => Sum.inr d

/-- `_get_cell_text`: `None` and out-of-range indices give `""`; a string
argument reaches `col_idx >= len(row.cells)` and raises `TypeError`. -/
def get_cell_text (cells : List String) : Option (Nat ⊕ String) → Except Unit String
  | none => .ok ""
  | some (Sum.inl i) => if cells.length ≤ i then .ok "" else .ok (pyStrip (cells.getD i ""))
  | some (Sum.inr _) => .error ()

/-- Prefix match of the regex `BASE\s*\((\d+)\)` (via `re.match`). -/
def parenNum (base u : List Char) : Option Nat :=
  if hasPfx base u then
    match (u.drop base.length).dropWhile isSpaceChar with
    | '(' :: r2 =>
        match r2.span isDigitChar with
        | ([], _) => none
        | (ds, r3) =>
            match r3 with
            | ')' :: _ => some (natFromDigits ds)
            | _ => none
    | _ => none
  else none

/-- Prefix match of the regex `BASE\s*\((\d+)\s*,\s*(\d+)\)` (via `re.match`). -/
def parenNumNum (base u : List Char) : Option (Nat × Nat) :=
  if hasPfx base u then
    match (u.drop base.length).dropWhile isSpaceChar with
    | '(' :: r2 =>
        match r2.span isDigitChar with
        | ([], _) => none
        | (ds, r3) =>
            match r3.dropWhile isSpaceChar with
            | ',' :: r4 =>
                match (r4.dropWhile isSpaceChar).span isDigitChar with
                | ([], _) => none
                | (es, r5) =>
                    match r5 with
                    | ')' :: _ => some (natFromDigits ds, natFromDigits es)
                    | _ => none
            | _ => none
    | _ => none
  else none

/-- Try each alternative of a regex alternation in order. -/
def tryBases {β : Type} (f : List Char → List Char → Option β) (bases : List String)
    (u : List Char) : Option (String × β) :=
  firstSome (fun b => (f b.data u).map (fun x => (b, x))) bases

/-- `_parse_data_type`: decompose a raw SQL-ish type string into
(type, data_length, precision, scale). -/
def parse_data_type (raw : String) :
    String × Option Nat × Option Nat × Option Nat :=
  if raw = "" then ("VARCHAR", none, none, none)
  else
    let u := upChars (stripChars raw.data)
    match tryBases parenNum ["VARCHAR", "CHAR"] u with
    | some (b, n) => (b, some n, none, none)
    | none =>
        match tryBases parenNumNum ["DECIMAL", "NUMERIC"] u with
        | some (b, ps) => (b, none, some ps.1, some ps.2)
        | none =>
            match tryBases parenNum ["DECIMAL", "NUMERIC"] u with
            | some (b, p) => (b, none, some p, some 0)
            | none => (⟨stripChars (u.takeWhile (· ≠ '('))⟩, none, none, none)

/-- `_parse_nullable`: trimmed upper-cased membership test. -/
def parse_nullable (raw : String) : Bool :=
  let u : String := ⟨upChars (stripChars raw.data)⟩
  (["Y", "YES", "TRUE", "1", "NULL", "NULLABLE"] : List String).contains u

/-- Any of the header regex patterns of `_classify_field_by_name` matches. -/
def headerPatMatch (cl : String) : Bool :=
  strPfx cl "header_" || strSfx cl "_header" || cl = "file_id" || cl = "header_id" ||
  cl = "subheader_id" || cl = "detail_id" || cl = "batch_id" || cl = "extract_id" ||
  cl = "record_id" || cl = "file_name" || cl = "file_date" || cl = "file_version" ||
  cl = "file_type" || cl = "creation_date" || cl = "creation_time" ||
  strPfx cl "sender_" || strPfx cl "receiver_"

/-- Any of the trailer regex patterns of `_classify_field_by_name` matches. -/
def trailerPatMatch (cl : String) : Bool :=
  strPfx cl "trailer_" || strSfx cl "_trailer" || strSfx cl "_count" ||
  strPfx cl "total_" || strSfx cl "_total" || strSfx cl "_sum" ||
  strSfx cl "_summary" || strPfx cl "footer_" || strSfx cl "_footer" ||
  cl = "record_count" || cl = "file_record_count" || cl = "total_amount" ||
  cl = "total_records"

/-- `_classify_field_by_name`: the pattern-based fallback classifier. -/
def classify_field_by_name (column_name description : String) : Flags :=
  let cl := pyLower column_name
  let dl := pyLower description
  if headerPatMatch cl then
    { is_header := true, is_body := false, is_trailer := false }
  else if trailerPatMatch cl then
    { is_header := false, is_body := false, is_trailer := true }
  else if strHas dl "header" || strHas dl "file-level" then
    { is_header := true, is_body := false, is_trailer := false }
  else if strHas dl "trailer" || strHas dl "total" || strHas dl "count" then
    { is_header := false, is_body := false, is_trailer := true }
  else
    { is_header := false, is_body := true, is_trailer := false }

/-- `_enhance_with_llm`: every oracle failure (raise or unparseable output) is
caught and replaced by the all-defaults object. -/
def enhance_with_llm (oracle : Oracle)
    (column_name description notes data_type : String) : Enriched :=
  match oracle column_name description notes data_type with
  | .ok (some e) => e
  | _ => defaultEnriched

/-- `_parse_row_to_column`: one row to an optional `ColumnSchema`; `error`
models an uncaught Python exception inside the row parse. -/
def parse_row_to_column (cells : List String) (ci : ColIdx)
    (cmap : List (String × Flags)) (column_id : Nat) (oracle : Oracle) :
    Except Unit (Option ColumnSchema) :=
  match get_cell_text cells (ci.field_name.map Sum.inl) with
  | .error e => .error e
  | .ok column_name =>
    if column_name = "" then .ok none
    else
      match get_cell_text cells (some (roleOr ci.description "")) with
      | .error e => .error e
      | .ok description =>
        match get_cell_text cells (some (roleOr ci.data_type "")) with
        | .error e => .error e
        | .ok data_type_raw =>
          match get_cell_text cells (some (roleOr ci.nullable "Y")) with
          | .error e => .error e
          | .ok nullable_raw =>
            match get_cell_text cells (some (roleOr ci.notes "")) with
            | .error e => .error e
            | .ok notes =>
              let dt := parse_data_type data_type_raw
              let nullable := parse_nullable nullable_raw
              let classification :=
                match cmap.lookup column_name with
                | some c => c
                | none => classify_field_by_name column_name description
              let enhanced := enhance_with_llm oracle column_name description notes dt.1
              .ok (some
                { column_id := column_id
                  column_name := column_name
                  description := if description = "" then "No description provided" else description
                  data_type := dt.1
                  data_length := dt.2.1
                  precision := dt.2.2.1
                  scale := dt.2.2.2
                  nullable := nullable
                  notes := notes
                  is_header := classification.is_header
                  is_body := classification.is_body
                  is_trailer := classification.is_trailer
                  allowed_values := enhanced.allowed_values
                  format_hint := enhanced.format_hint
                  default_value := enhanced.default_value
                  is_system_generated := enhanced.is_system_generated
                  data_classification := enhanced.data_classification
                  foreign_key_table := enhanced.foreign_key_table
                  foreign_key_column := enhanced.foreign_key_column
                  business_rule := enhanced.business_rule
                  sample_values := enhanced.sample_values })

/-- Data-row loop of `_parse_table_to_columns`: `row_idx` enumerates data rows
from 1, a raising row is logged and skipped, `column_id` is
`start_column_id + row_idx - 1`. -/
def parseRowsGo (cmap : List (String × Flags)) (oracle : Oracle) (ci : ColIdx)
    (start_column_id : Nat) : List (List String) → Nat → List ColumnSchema
  | [], _ => []
  | r :: rs, row_idx =>
      match parse_row_to_column r ci cmap (start_column_id + row_idx - 1) oracle with
      | .ok (some c) => c :: parseRowsGo cmap oracle ci start_column_id rs (row_idx + 1)
      | _ => parseRowsGo cmap oracle ci start_column_id rs (row_idx + 1)

/-- `_parse_table_to_columns`. -/
def parse_table_to_columns (cmap : List (String × Flags)) (oracle : Oracle)
    (t : RawTable) (start_column_id : Nat) : List ColumnSchema :=
  parseRowsGo cmap oracle (identify_column_indices (headerCellsOf t)) start_column_id
    (t.rows.drop 1) 1

/-- Table loop of `parse_document`: the global `column_counter` advances by the
number of columns each table actually produced. -/
def parseTablesGo (cmap : List (String × Flags)) (oracle : Oracle) :
    List RawTable → Nat → List ColumnSchema
  | [], _ => []
  | t :: ts, counter =>
      let tc := parse_table_to_columns cmap oracle t counter
      tc ++ parseTablesGo cmap oracle ts (counter + tc.length)

/-- `parse_document`: the orchestrator (document-info extraction from
paragraphs omitted; it does not affect tables or columns). -/
def parse_document (doc : List RawTable) (oracle : Oracle) : MetadataJSON :=
  let field_tables := extract_field_specification_tables doc
  let cmap := extract_classification_tables doc
  let columns := parseTablesGo cmap oracle field_tables 1
  { version := "1.0"
    tables := [{ table_name := "fintrac_swift_extract"
                 table_description := "FINTRAC SWIFT Source Extract Specification"
                 columns := columns }] }

/-- The enrichment part of an output column. -/
def enrichedOf (c : ColumnSchema) : Enriched :=
  { allowed_values := c.allowed_values
    format_hint := c.format_hint
    default_value := c.default_value
    is_system_generated := c.is_system_generated
    data_classification := c.data_classification
    foreign_key_table := c.foreign_key_table
    foreign_key_column := c.foreign_key_column
    business_rule := c.business_rule
    sample_values := c.sample_values }

/-- Exactly one of the three section booleans is set. -/
def exactlyOneSection (h b t : Bool) : Prop :=
  (h = true ∧ b = false ∧ t = false) ∨
  (h = false ∧ b = true ∧ t = false) ∨
  (h = false ∧ b = false ∧ t = true)

/-- A default column used only to pick elements out of concrete lists. -/
def emptyColumn : ColumnSchema :=
  { column_id := 0, column_name := "", description := "", data_type := "",
    data_length := none, precision := none, scale := none, nullable := false,
    notes := "", is_header := false, is_body := false, is_trailer := false,
    allowed_values := none, format_hint := none, default_value := none,
    is_system_generated := false, data_classification := none,
    foreign_key_table := none, foreign_key_column := none,
    business_rule := none, sample_values := none }

/-- Exact-form match of the literal shape `BASE(N)` with nothing before or
after, as written in the claim. -/
def exactParenNum (base u : List Char) : Option Nat :=
  if hasPfx base u then
    match u.drop base.length with
    | '(' :: r2 =>
        match r2.span isDigitChar with
        | ([], _) => none
        | (ds, r3) =>
            match r3 with
            | [')'] => some (natFromDigits ds)
            | _ => none
    | _ => none
  else none

/-- Exact-form match of the literal shape `BASE(P,S)` with nothing before or
after, as written in the claim. -/
def exactParenNumNum (base u : List Char) : Option (Nat × Nat) :=
  if hasPfx base u then
    match u.drop base.length with
    | '(' :: r2 =>
        match r2.span isDigitChar with
        | ([], _) => none
        | (ds, r3) =>
            match r3 with
            | ',' :: r4 =>
                match r4.span isDigitChar with
                | ([], _) => none
                | (es, r5) =>
                    match r5 with
                    | [')'] => some (natFromDigits ds, natFromDigits es)
                    | _ => none
            | _ => none
    | _ => none
  else none

/-- The data-type decomposition exactly as the claim states it: after trimming
and upper-casing, the input must literally *be* `VARCHAR(N)`/`CHAR(N)`,
`DECIMAL(P,S)`/`NUMERIC(P,S)` or `DECIMAL(P)`/`NUMERIC(P)`; any other input
maps to the substring before the first parenthesis with all three numeric
components absent. -/
def dataTypeClaimSpec (raw : String) :
    String × Option Nat × Option Nat × Option Nat :=
  if raw = "" then ("VARCHAR", none, none, none)
  else
    let u := upChars (stripChars raw.data)
    match tryBases exactParenNum ["VARCHAR", "CHAR"] u with
    | some (b, n) => (b, some n, none, none)
    | none =>
        match tryBases exactParenNumNum ["DECIMAL", "NUMERIC"] u with
        | some (b, ps) => (b, none, some ps.1, some ps.2)
        | none =>
            match tryBases exactParenNum ["DECIMAL", "NUMERIC"] u with
            | some (b, p) => (b, none, some p, some 0)
            | none => (⟨stripChars (u.takeWhile (· ≠ '('))⟩, none, none, none)

/-- The amended data-type decomposition: identical to the claim except that
the three parenthesized forms are recognized as *prefixes* of the trimmed
upper-cased input (optional whitespace before the parenthesis, anything after
the closing parenthesis ignored), matching `re.match` semantics. -/
def dataTypeSpecAmended (raw : String) :
    String × Option Nat × Option Nat × Option Nat :=
  if raw = "" then ("VARCHAR", none, none, none)
  else
    let u := upChars (stripChars raw.data)
    match tryBases parenNum ["VARCHAR", "CHAR"] u with
    | some (b, n) => (b, some n, none, none)
    | none =>
        match tryBases parenNumNum ["DECIMAL", "NUMERIC"] u with
        | some (b, ps) => (b, none, some ps.1, some ps.2)
        | none =>
            match tryBases parenNum ["DECIMAL", "NUMERIC"] u with
            | some (b, p) => (b, none, some p, some 0)
            | none => (⟨stripChars (u.takeWhile (· ≠ '('))⟩, none, none, none)

/-- C1 example: two specification tables; the first contains a data row with
an empty field name (skipped) followed by a valid row. -/
def exC1Doc : List RawTable :=
  [{ numCols := 5,
     rows := [["Field Name", "Business Description", "SQL Data Type", "Nullable", "Notes"],
              ["", "", "", "", ""],
              ["abc", "d", "VARCHAR(5)", "Y", ""]] },
   { numCols := 5,
     rows := [["Field Name", "Business Description", "SQL Data Type", "Nullable", "Notes"],
              ["xyz", "d", "INT", "N", ""]] }]

/-- C2 example: ten unique candidates; the third-highest trailer-scored name
(`header_count`) is already claimed by the header set. -/
def exC2Doc : List RawTable :=
  [{ numCols := 6,
     rows := [["#", "Field Name", "Business Description", "SQL Data Type", "Nullable", "Notes"],
              ["1", "file_a", "d", "", "", ""],
              ["2", "file_b", "d", "", "", ""],
              ["3", "file_c", "d", "", "", ""],
              ["4", "file_d", "d", "", "", ""],
              ["5", "file_e", "d", "", "", ""],
              ["6", "header_count", "d", "", "", ""],
              ["7", "total_amount", "d", "", "", ""],
              ["8", "record_count", "d", "", "", ""],
              ["9", "city", "d", "", "", ""],
              ["10", "phone", "d", "", "", ""]] }]

/-- C3 example: the claim's scenario document — one specification table with
`header_id` in data row 1 of 10, eight generic transaction-style fields, and
`total_amount` in data row 10. -/
def exC3Doc : List RawTable :=
  [{ numCols := 5,
     rows := [["Field Name", "Business Description", "SQL Data Type", "Nullable", "Notes"],
              ["header_id", "d", "VARCHAR(10)", "N", ""],
              ["beneficiary_name", "d", "VARCHAR(50)", "Y", ""],
              ["transaction_amount", "d", "DECIMAL(18,2)", "Y", ""],
              ["originating_account", "d", "VARCHAR(34)", "Y", ""],
              ["payment_currency", "d", "CHAR(3)", "Y", ""],
              ["transfer_status", "d", "VARCHAR(10)", "Y", ""],
              ["instruction_code", "d", "VARCHAR(10)", "Y", ""],
              ["beneficiary_address", "d", "VARCHAR(100)", "Y", ""],
              ["account_city", "d", "VARCHAR(35)", "Y", ""],
              ["total_amount", "d", "DECIMAL(18,2)", "N", ""]] }]

/-- C4 example: a field-specification table whose header maps `field_name` and
`data_type` but none of `description` / `nullable` / `notes`. -/
def exC4Table : RawTable :=
  { numCols := 2,
    rows := [["Field Name", "SQL Data Type"],
             ["abc", "VARCHAR(5)"]] }

/-- C5 witness example: a one-row specification table. -/
def exC5Doc : List RawTable :=
  [{ numCols := 5,
     rows := [["Field Name", "Business Description", "SQL Data Type", "Nullable", "Notes"],
              ["account_id", "d", "VARCHAR(10)", "Y", ""]] }]

/-- C9 witness example: a small document. -/
def exC9Doc : List RawTable :=
  [{ numCols := 5,
     rows := [["Field Name", "Business Description", "SQL Data Type", "Nullable", "Notes"],
              ["payment_date", "d", "VARCHAR(8)", "Y", ""]] }]

/-- C10 witness example: a three-column table whose header is full of
field-specification indicators. -/
def exC10Table : RawTable :=
  { numCols := 3,
    rows := [["Field Name", "Description", "Data Type"],
             ["account_id", "d", "VARCHAR(10)"],
             ["payment_date", "d", "VARCHAR(8)"]] }

/-- C8: `parse_nullable` returns true iff the trimmed, upper-cased input is
one of Y, YES, TRUE, 1, NULL, NULLABLE; everything else (including the empty
string) gives false. -/
theorem c8_parse_nullable_iff (s : String) :
    parse_nullable s = true ↔
      pyUpper (pyStrip s) ∈ (["Y", "YES", "TRUE", "1", "NULL", "NULLABLE"] : List String) := by
  constructor
  · intro h
    exact List.elem_iff.mp h
  · intro h
    exact List.elem_iff.mpr h

/-- C6 counterexample: on `"VARCHAR(50) NOT NULL"` — which is not literally of
the form `VARCHAR(N)` — the claim's case analysis demands the substring before
the first parenthesis with all numeric components `None`, but the code's
`re.match`-based prefix matching returns `("VARCHAR", 50, None, None)`. -/
theorem c6_counterexample :
    parse_data_type "VARCHAR(50) NOT NULL" ≠ dataTypeClaimSpec "VARCHAR(50) NOT NULL" ∧
    parse_data_type "VARCHAR(50) NOT NULL" = ("VARCHAR", some 50, none, none) ∧
    dataTypeClaimSpec "VARCHAR(50) NOT NULL" = ("VARCHAR", none, none, none) := by
  refine ⟨?_, by decide, by decide⟩
  decide

/-- C6 amended: `parse_data_type` implements the claim's case analysis with the
three parenthesized forms matched as *prefixes* of the trimmed upper-cased
input (`re.match` semantics: optional whitespace before `(`, trailing text
after `)` ignored); the claim's five worked examples all hold. -/
theorem c6_amended :
    (∀ s : String, parse_data_type s = dataTypeSpecAmended s) ∧
    parse_data_type "VARCHAR(50)" = ("VARCHAR", some 50, none, none) ∧
    parse_data_type "DECIMAL(18,2)" = ("DECIMAL", none, some 18, some 2) ∧
    parse_data_type "DECIMAL(18)" = ("DECIMAL", none, some 18, some 0) ∧
    parse_data_type "INTEGER" = ("INTEGER", none, none, none) ∧
    parse_data_type "" = ("VARCHAR", none, none, none) := by
  exact ⟨fun s => rfl, by decide, by decide, by decide, by decide, by decide⟩

/-- C10: a table with exactly three grid columns is never accepted by the
strict specification-table classifier — whatever its header text or row
count — and hence never appears among the specification tables feeding the
global classification map. -/
theorem c10_three_column_tables_rejected (t : RawTable) (doc : List RawTable)
    (i : Nat) (h : t.numCols = 3) :
    is_specification_table t = false ∧ (i, t) ∉ specTables doc := by
  have h1 : is_specification_table t = false := by
    unfold is_specification_table
    split
    · rfl
    · rw [h]
      norm_num
  refine ⟨h1, fun hmem => ?_⟩
  have h2 := (List.mem_filter.mp hmem).2
  simp only [h1] at h2
  exact Bool.false_ne_true h2

/-- C10 witness: the three-column table `exC10Table`, despite a header full of
indicators and three rows, is rejected and never contributes. -/
theorem c10_witness :
    is_specification_table exC10Table = false ∧
      (0, exC10Table) ∉ specTables [exC10Table] :=
  c10_three_column_tables_rejected exC10Table [exC10Table] 0 rfl

/-- C9: `parse_document` is deterministic — its output depends only on the
document contents and the oracle's responses: two runs over the same document
with extensionally equal oracles produce identical outputs (same column_ids,
classifications and ordering). -/
theorem c9_parse_document_deterministic (doc : List RawTable) (o₁ o₂ : Oracle)
    (h : ∀ a b c d, o₁ a b c d = o₂ a b c d) :
    parse_document doc o₁ = parse_document doc o₂ := by
  have ho : o₁ = o₂ := funext fun a => funext fun b => funext fun c => funext fun d => h a b c d
  rw [ho]

/-- C9 witness: applying determinism to a concrete document and oracle. -/
theorem c9_witness : parse_document exC9Doc throwOracle = parse_document exC9Doc throwOracle :=
  c9_parse_document_deterministic exC9Doc throwOracle throwOracle (fun _ _ _ _ => rfl)

/-- C1 (code bug, at the failing input `exC1Doc`): the first table's empty
data row is skipped, yet `column_id` is computed from the row index
(`start + row_idx - 1`) while the cross-table counter advances by the number
of columns actually produced; the two produced columns both get `column_id`
2 — not the ids 1..2 promised by the spec (and not unique, contrary to the
code's own "unique IDs" comment). -/
theorem c1_code_duplicate_ids_at_failing_input :
    ((allColumns (parse_document exC1Doc throwOracle)).map (·.column_id)) = [2, 2] ∧
    ((allColumns (parse_document exC1Doc throwOracle)).map (·.column_id)) ≠
      List.range' 1 (allColumns (parse_document exC1Doc throwOracle)).length := by
  exact ⟨by decide, by decide⟩

/-- C4 (code bug, at the failing input): in a table whose header maps only
`field_name` and `data_type`, the roles `description`/`nullable`/`notes` are
unmapped, so `col_indices.get(role, default)` passes the *string* default to
`_get_cell_text`, whose `col_idx >= len(row.cells)` comparison raises
`TypeError`; the row is swallowed by the caller's exception handler instead of
being parsed with the documented defaults. -/
theorem c4_code_raises_on_unmapped_roles :
    (identify_column_indices ["Field Name", "SQL Data Type"]).description = none ∧
    parse_row_to_column ["abc", "VARCHAR(5)"]
      (identify_column_indices ["Field Name", "SQL Data Type"]) [] 1 throwOracle =
      .error () ∧
    parse_table_to_columns [] throwOracle exC4Table 1 = [] := by
  exact ⟨by decide, by rfl, by decide⟩

/-- C3 counterexample: on the claim's own scenario document the eight generic
fields are *not* all classified body — `beneficiary_name` (and four other
generics) land in the header set because the global rebalancing always fills
six header slots, and `account_city` lands in the trailer set because
`"account"` contains the substring `"count"`. -/
theorem c3_counterexample :
    ¬ ((allColumns (parse_document exC3Doc throwOracle)).all
        (fun c =>
          if c.column_name = "header_id" then c.is_header && !c.is_body && !c.is_trailer
          else if c.column_name = "total_amount" then !c.is_header && !c.is_body && c.is_trailer
          else !c.is_header && c.is_body && !c.is_trailer) = true) := by
  decide

/-- C3 amended: on the scenario document the pipeline classifies `header_id`
as header and `total_amount` as trailer as claimed, but of the eight generic
fields five (`beneficiary_name`, `transaction_amount`, `originating_account`,
`payment_currency`, `transfer_status`) are classified header by the
fill-to-six rebalancing, `account_city` is classified trailer (its name
contains `"count"`), and only `instruction_code` and `beneficiary_address`
are body. -/
theorem c3_amended :
    ((allColumns (parse_document exC3Doc throwOracle)).map
      (fun c => (c.column_name, c.is_header, c.is_body, c.is_trailer))) =
    [("header_id", true, false, false), ("beneficiary_name", true, false, false),
     ("transaction_amount", true, false, false), ("originating_account", true, false, false),
     ("payment_currency", true, false, false), ("transfer_status", true, false, false),
     ("instruction_code", false, true, false), ("beneficiary_address", false, true, false),
     ("account_city", false, false, true), ("total_amount", false, false, true)] := by
  decide

/-- C2 counterexample: on `exC2Doc` there are 10 unique candidates and 6
header names, so the claim demands `min(3, 4) = 3` trailer names; but the
code filters the header-claimed `header_count` out of the top-3 trailer
candidates without replacement, leaving only 2. -/
theorem c2_counterexample :
    ((extract_classification_tables exC2Doc).filter (fun p => p.2.is_trailer)).length ≠
      min 3 ((uniqueFields exC2Doc).length -
        ((extract_classification_tables exC2Doc).filter (fun p => p.2.is_header)).length) := by
  decide

/-- C7: a raising oracle and an oracle returning unparseable output are
handled identically to an oracle answering the all-defaults object — row
parsing is never aborted by the oracle — and every column produced under a
raising oracle carries exactly the default enrichment (all nine fields
`None`/`False`). -/
theorem c7_oracle_failure_defaults (cells : List String) (ci : ColIdx)
    (cmap : List (String × Flags)) (column_id : Nat) :
    parse_row_to_column cells ci cmap column_id throwOracle =
      parse_row_to_column cells ci cmap column_id defaultsOkOracle ∧
    parse_row_to_column cells ci cmap column_id unparseableOracle =
      parse_row_to_column cells ci cmap column_id defaultsOkOracle ∧
    (parse_row_to_column cells ci cmap column_id throwOracle).map (Option.map enrichedOf) =
      (parse_row_to_column cells ci cmap column_id throwOracle).map
        (Option.map (fun _ => defaultEnriched)) := by
  have hthrow : ∀ a b c d, enhance_with_llm throwOracle a b c d = defaultEnriched :=
    fun _ _ _ _ => rfl
  have hun : ∀ a b c d, enhance_with_llm unparseableOracle a b c d = defaultEnriched :=
    fun _ _ _ _ => rfl
  have hok : ∀ a b c d, enhance_with_llm defaultsOkOracle a b c d = defaultEnriched :=
    fun _ _ _ _ => rfl
  refine ⟨?_, ?_, ?_⟩
  · simp only [parse_row_to_column, hthrow, hok]
  · simp only [parse_row_to_column, hun, hok]
  · simp only [parse_row_to_column]
    cases h1 : get_cell_text cells (ci.field_name.map Sum.inl) with
    | error e => rfl
    | ok column_name =>
      by_cases hc : column_name = ""
      · simp only [if_pos hc]
        rfl
      · simp only [if_neg hc]
        cases h2 : get_cell_text cells (some (roleOr ci.description "")) with
        | error e => rfl
        | ok description =>
          cases h3 : get_cell_text cells (some (roleOr ci.data_type "")) with
          | error e => rfl
          | ok dtr =>
            cases h4 : get_cell_text cells (some (roleOr ci.nullable "Y")) with
            | error e => rfl
            | ok nr =>
              cases h5 : get_cell_text cells (some (roleOr ci.notes "")) with
              | error e => rfl
              | ok nt => rfl

/-- Stable insertion permutes. -/
theorem insDesc_perm {α : Type} (k : α → Nat) (x : α) (l : List α) :
    (insDesc k x l).Perm (x :: l) := by
  induction l with
  | nil => simp [insDesc]
  | cons y ys ih =>
      by_cases h : k y ≤ k x
      · simp [insDesc, h]
      · simp only [insDesc, if_neg h]
        exact (ih.cons y).trans (List.Perm.swap x y ys)

/-- The stable descending sort permutes its input. -/
theorem sortDesc_perm {α : Type} (k : α → Nat) (l : List α) :
    (sortDesc k l).Perm l := by
  induction l with
  | nil => exact List.Perm.refl _
  | cons x xs ih =>
      exact (insDesc_perm k x (sortDesc k xs)).trans (ih.cons x)

/-- Deduplication by name produces nodup names, none of them in `seen`. -/
theorem dedupByName_names_nodup (l : List FieldCand) :
    ∀ seen : List String,
      ((dedupByName l seen).map (·.name)).Nodup ∧
      ∀ x ∈ (dedupByName l seen).map (·.name), x ∉ seen := by
  induction l with
  | nil => intro seen; simp [dedupByName]
  | cons f fs ih =>
      intro seen
      by_cases hm : f.name ∈ seen
      · have hc : seen.contains f.name = true := List.elem_iff.mpr hm
        rw [dedupByName, if_pos hc]
        exact ih seen
      · have hc : ¬ (seen.contains f.name = true) := fun hcc => hm (List.elem_iff.mp hcc)
        rw [dedupByName, if_neg hc]
        have hrec := ih (f.name :: seen)
        constructor
        · rw [List.map_cons, List.nodup_cons]
          refine ⟨fun hmem => ?_, hrec.1⟩
          exact (hrec.2 _ hmem) (List.mem_cons_self _ _)
        · intro x hx
          rw [List.map_cons, List.mem_cons] at hx
          rcases hx with hx | hx
          · subst hx; exact hm
          · intro hxs
            exact (hrec.2 x hx) (List.mem_cons_of_mem _ hxs)

/-- The unique candidate list of any document has pairwise distinct names. -/
theorem uniqueFields_names_nodup (doc : List RawTable) :
    ((uniqueFields doc).map (·.name)).Nodup :=
  (dedupByName_names_nodup (allFields doc) []).1

/-- Counting members of a nodup sub-collection inside a nodup list. -/
theorem countP_contains_eq_length (M T : List String) (hM : M.Nodup) (hT : T.Nodup)
    (hsub : ∀ x ∈ T, x ∈ M) :
    M.countP (fun x => T.contains x) = T.length := by
  rw [List.countP_eq_length_filter]
  have h1 : (M.filter (fun x => T.contains x)).Nodup := hM.filter _
  have hsetEq : (M.filter (fun x => T.contains x)).toFinset = T.toFinset := by
    ext a
    simp only [List.mem_toFinset, List.mem_filter, List.elem_iff]
    exact ⟨fun h => h.2, fun h => ⟨hsub a h, h⟩⟩
  calc (M.filter (fun x => T.contains x)).length
      = (M.filter (fun x => T.contains x)).toFinset.card :=
        (List.toFinset_card_of_nodup h1).symm
    _ = T.toFinset.card := by rw [hsetEq]
    _ = T.length := List.toFinset_card_of_nodup hT

/-- Names of the first `m` elements of a stable descending sort of the unique
candidates: nodup, drawn from the candidate names, of length `min m n`. -/
theorem sortTake_names_facts (k : FieldCand → Nat) (m : Nat) (uniq : List FieldCand)
    (hN : (uniq.map (·.name)).Nodup) :
    (((sortDesc k uniq).take m).map (·.name)).Nodup ∧
    (∀ x ∈ ((sortDesc k uniq).take m).map (·.name), x ∈ uniq.map (·.name)) ∧
    (((sortDesc k uniq).take m).map (·.name)).length = min m uniq.length := by
  have hperm : ((sortDesc k uniq).map (·.name)).Perm (uniq.map (·.name)) :=
    (sortDesc_perm k uniq).map _
  have hLnodup : ((sortDesc k uniq).map (·.name)).Nodup := hperm.symm.nodup hN
  have hmt : ((sortDesc k uniq).take m).map (·.name) =
      ((sortDesc k uniq).map (·.name)).take m := by
    rw [List.map_take]
  refine ⟨?_, ?_, ?_⟩
  · rw [hmt]
    exact hLnodup.sublist (List.take_sublist m _)
  · intro x hx
    rw [hmt] at hx
    exact hperm.subset (List.mem_of_mem_take hx)
  · rw [hmt, List.length_take, List.length_map, (sortDesc_perm k uniq).length_eq]

/-- Filtering the classification map by a flag predicate counts candidates. -/
theorem classMap_filter_length (uniq : List FieldCand) (hdr bod trl : List String)
    (p : Flags → Bool) :
    ((classMapOf uniq hdr bod trl).filter (fun q => p q.2)).length =
      (uniq.map (·.name)).countP
        (fun n => p { is_header := hdr.contains n, is_body := bod.contains n,
                      is_trailer := trl.contains n }) := by
  unfold classMapOf
  rw [List.filter_map, List.length_map, ← List.countP_eq_length_filter, List.countP_map]
  rfl

/-- C2 amended: for every document, the number of names mapped to
`is_header = true` is `min(6, number_of_unique_candidate_fields)`, and the
number of names mapped to `is_trailer = true` equals the size of the trailer
set — the top-3 trailer-scored candidates *with header-claimed names removed
and not replaced*, which can be strictly smaller than
`min(3, remaining_after_header)` (see the counterexample). -/
theorem c2_amended (doc : List RawTable) :
    ((extract_classification_tables doc).filter (fun p => p.2.is_header)).length =
      min 6 (uniqueFields doc).length ∧
    ((extract_classification_tables doc).filter (fun p => p.2.is_trailer)).length =
      (trailerFieldNames doc).length := by
  have hN : ((uniqueFields doc).map (·.name)).Nodup := uniqueFields_names_nodup doc
  have hhdr := sortTake_names_facts (fun f => f.scores.header) 6 (uniqueFields doc) hN
  have htrl0 := sortTake_names_facts (fun f => f.scores.trailer) 3 (uniqueFields doc) hN
  have hHnodup : (headerFieldNames doc).Nodup := hhdr.1
  have hHsub : ∀ x ∈ headerFieldNames doc, x ∈ (uniqueFields doc).map (·.name) := hhdr.2.1
  have hHlen : (headerFieldNames doc).length = min 6 (uniqueFields doc).length := hhdr.2.2
  have hTnodup : (trailerFieldNames doc).Nodup := by
    unfold trailerFieldNames trailerNamesOf
    exact List.Nodup.filter _ htrl0.1
  have hTsub : ∀ x ∈ trailerFieldNames doc, x ∈ (uniqueFields doc).map (·.name) := by
    intro x hx
    unfold trailerFieldNames trailerNamesOf at hx
    exact htrl0.2.1 x (List.mem_of_mem_filter hx)
  have hmap : extract_classification_tables doc =
      classMapOf (uniqueFields doc) (headerFieldNames doc) (bodyFieldNames doc)
        (trailerFieldNames doc) := rfl
  constructor
  · rw [hmap, classMap_filter_length]
    have : ((uniqueFields doc).map (·.name)).countP
        (fun n => (headerFieldNames doc).contains n) =
        (headerFieldNames doc).length :=
      countP_contains_eq_length _ _ hN hHnodup hHsub
    simpa using this.trans hHlen
  · rw [hmap, classMap_filter_length]
    simpa using countP_contains_eq_length _ _ hN hTnodup hTsub

/-- Bool form of non-membership. -/
theorem contains_eq_false {l : List String} {x : String} (h : x ∉ l) :
    l.contains x = false := by
  cases hc : l.contains x
  · rfl
  · exact absurd (List.elem_iff.mp hc) h

/-- A name in the trailer set was not claimed by the header set. -/
theorem trailerNamesOf_not_mem_hdr {uniq : List FieldCand} {hdr : List String}
    {x : String} (h : x ∈ trailerNamesOf uniq hdr) : x ∉ hdr := by
  unfold trailerNamesOf at h
  have := List.of_mem_filter h
  simpa using this

/-- A name in the body set is neither header nor trailer, and conversely every
unclaimed candidate name is body. -/
theorem bodyNamesOf_spec {uniq : List FieldCand} {hdr trl : List String}
    {x : String} :
    x ∈ bodyNamesOf uniq hdr trl ↔
      x ∈ uniq.map (·.name) ∧ x ∉ hdr ∧ x ∉ trl := by
  unfold bodyNamesOf
  simp [List.mem_filter, and_assoc]

/-- Looking a name up in the classification map yields the three membership
booleans of that name. -/
theorem lookup_classMapOf (uniq : List FieldCand) (hdr bod trl : List String)
    (n : String) (c : Flags)
    (h : (classMapOf uniq hdr bod trl).lookup n = some c) :
    n ∈ uniq.map (·.name) ∧
      c = { is_header := hdr.contains n, is_body := bod.contains n,
            is_trailer := trl.contains n } := by
  induction uniq with
  | nil => simp [classMapOf] at h
  | cons f fs ih =>
      simp only [classMapOf, List.map_cons] at h
      cases hbe : n == f.name with
      | true =>
          have heq : n = f.name := eq_of_beq hbe
          rw [List.lookup_cons] at h
          simp only [hbe] at h
          refine ⟨by simp [heq], ?_⟩
          cases h
          rw [heq]
      | false =>
          rw [List.lookup_cons] at h
          simp only [hbe] at h
          have := ih h
          exact ⟨by simp [this.1], this.2⟩

/-- Every entry of the global classification map has exactly one flag set. -/
theorem classMap_lookup_exactlyOne (uniq : List FieldCand) (n : String) (c : Flags)
    (h : (classMapOf uniq (headerNamesOf uniq)
        (bodyNamesOf uniq (headerNamesOf uniq) (trailerNamesOf uniq (headerNamesOf uniq)))
        (trailerNamesOf uniq (headerNamesOf uniq))).lookup n = some c) :
    exactlyOneSection c.is_header c.is_body c.is_trailer := by
  obtain ⟨hnm, hc⟩ := lookup_classMapOf _ _ _ _ _ _ h
  subst hc
  by_cases hH : n ∈ headerNamesOf uniq
  · have h2 : n ∉ trailerNamesOf uniq (headerNamesOf uniq) :=
      fun ht => (trailerNamesOf_not_mem_hdr ht) hH
    have h3 : n ∉ bodyNamesOf uniq (headerNamesOf uniq)
        (trailerNamesOf uniq (headerNamesOf uniq)) :=
      fun hb => (bodyNamesOf_spec.mp hb).2.1 hH
    left
    simp
    exact ⟨hH, h3, h2⟩
  · by_cases hT : n ∈ trailerNamesOf uniq (headerNamesOf uniq)
    · have h3 : n ∉ bodyNamesOf uniq (headerNamesOf uniq)
          (trailerNamesOf uniq (headerNamesOf uniq)) :=
        fun hb => (bodyNamesOf_spec.mp hb).2.2 hT
      right; right
      simp
      exact ⟨hH, h3, hT⟩
    · have h3 : n ∈ bodyNamesOf uniq (headerNamesOf uniq)
          (trailerNamesOf uniq (headerNamesOf uniq)) :=
        bodyNamesOf_spec.mpr ⟨hnm, hH, hT⟩
      right; left
      simp
      exact ⟨hH, h3, hT⟩

/-- The pattern-based fallback classifier always sets exactly one flag. -/
theorem classify_field_by_name_exactlyOne (n d : String) :
    exactlyOneSection (classify_field_by_name n d).is_header
      (classify_field_by_name n d).is_body (classify_field_by_name n d).is_trailer := by
  unfold classify_field_by_name
  dsimp only
  split_ifs <;> simp [exactlyOneSection]

/-- Every column produced by the row mapper carries an exactly-one flag
triple, provided the classification map only stores such triples. -/
theorem parse_row_to_column_exactlyOne (cells : List String) (ci : ColIdx)
    (cmap : List (String × Flags)) (column_id : Nat) (oracle : Oracle)
    (col : ColumnSchema)
    (hmap : ∀ n c, cmap.lookup n = some c →
      exactlyOneSection c.is_header c.is_body c.is_trailer)
    (h : parse_row_to_column cells ci cmap column_id oracle = .ok (some col)) :
    exactlyOneSection col.is_header col.is_body col.is_trailer := by
  unfold parse_row_to_column at h
  split at h
  · exact Except.noConfusion h
  · rename_i column_name h1
    split at h
    · simp at h
    · split at h
      · exact Except.noConfusion h
      · rename_i description h2
        split at h
        · exact Except.noConfusion h
        · rename_i dtr h3
          split at h
          · exact Except.noConfusion h
          · rename_i nr h4
            split at h
            · exact Except.noConfusion h
            · rename_i nt h5
              simp only [Except.ok.injEq, Option.some.injEq] at h
              subst h
              cases hl : cmap.lookup column_name with
              | some c => simpa [hl] using hmap _ _ hl
              | none =>
                  simpa [hl] using classify_field_by_name_exactlyOne column_name description

/-- Lifting exclusivity through the data-row loop. -/
theorem parseRowsGo_exactlyOne (cmap : List (String × Flags)) (oracle : Oracle)
    (ci : ColIdx) (start_column_id : Nat)
    (hmap : ∀ n c, cmap.lookup n = some c →
      exactlyOneSection c.is_header c.is_body c.is_trailer) :
    ∀ (rows : List (List String)) (idx : Nat) (col : ColumnSchema),
      col ∈ parseRowsGo cmap oracle ci start_column_id rows idx →
      exactlyOneSection col.is_header col.is_body col.is_trailer := by
  intro rows
  induction rows with
  | nil => intro idx col h; simp [parseRowsGo] at h
  | cons r rs ih =>
      intro idx col h
      rw [parseRowsGo] at h
      cases hr : parse_row_to_column r ci cmap (start_column_id + idx - 1) oracle with
      | error e =>
          rw [hr] at h
          exact ih _ _ h
      | ok o =>
          cases o with
          | none =>
              rw [hr] at h
              exact ih _ _ h
          | some c =>
              rw [hr] at h
              rcases List.mem_cons.mp h with h | h
              · subst h
                exact parse_row_to_column_exactlyOne _ _ _ _ _ _ hmap hr
              · exact ih _ _ h

/-- Lifting exclusivity through the table loop. -/
theorem parseTablesGo_exactlyOne (cmap : List (String × Flags)) (oracle : Oracle)
    (hmap : ∀ n c, cmap.lookup n = some c →
      exactlyOneSection c.is_header c.is_body c.is_trailer) :
    ∀ (tables : List RawTable) (counter : Nat) (col : ColumnSchema),
      col ∈ parseTablesGo cmap oracle tables counter →
      exactlyOneSection col.is_header col.is_body col.is_trailer := by
  intro tables
  induction tables with
  | nil => intro counter col h; simp [parseTablesGo] at h
  | cons t ts ih =>
      intro counter col h
      rw [parseTablesGo] at h
      rcases List.mem_append.mp h with h | h
      · unfold parse_table_to_columns at h
        exact parseRowsGo_exactlyOne cmap oracle _ _ hmap _ _ _ h
      · exact ih _ _ h

/-- C5: for every document and every oracle, each column of the
`parse_document` output has exactly one of `is_header`, `is_body`,
`is_trailer` set — both for names resolved through the global classification
map and for names classified by the `classify_field_by_name` fallback. -/
theorem c5_exclusivity (doc : List RawTable) (oracle : Oracle) (col : ColumnSchema)
    (h : col ∈ allColumns (parse_document doc oracle)) :
    exactlyOneSection col.is_header col.is_body col.is_trailer := by
  have hmap : ∀ n c, (extract_classification_tables doc).lookup n = some c →
      exactlyOneSection c.is_header c.is_body c.is_trailer :=
    fun n c hl => classMap_lookup_exactlyOne (uniqueFields doc) n c hl
  have h' : col ∈ parseTablesGo (extract_classification_tables doc) oracle
      (extract_field_specification_tables doc) 1 := by
    simpa [parse_document, allColumns] using h
  exact parseTablesGo_exactlyOne _ _ hmap _ _ _ h'

/-- C5 witness: exclusivity instantiated on a concrete document's first output
column. -/
theorem c5_witness :
    exactlyOneSection
      ((allColumns (parse_document exC5Doc throwOracle)).headD emptyColumn).is_header
      ((allColumns (parse_document exC5Doc throwOracle)).headD emptyColumn).is_body
      ((allColumns (parse_document exC5Doc throwOracle)).headD emptyColumn).is_trailer :=
  c5_exclusivity exC5Doc throwOracle _ (by decide)
